import Mathlib

/-!
Shallow embedding of the SABI-Mentech adaptive-tutor core
(`src/app.py`, `src/logica_bkt.py`): prerequisite graph utilities,
depth computation, BKT mastery update with its fallbacks, heuristic
propagation, the recommenders, and the quiz session state machine.
Probabilities are modelled as rationals; SQLite stores become explicit
maps; the external pyBKT fit/predict call is abstracted as an outcome.
-/

/-- Concept identifiers are the string ids of graph nodes. -/
abbrev ConceptId := String

/-- Prerequisite edge, as in `grafo_conocimiento_ARISTAS.json`: `de` is the
prerequisite, `a` the dependent concept (app.py uses `e['de']`/`e['a']`). -/
structure Arista where
  de : ConceptId
  a : ConceptId
deriving DecidableEq, Repr

/-- Mastery profile: concept id to stored probability, with the dictionary
default 0.0 baked in (app.py reads `perfil.get(cid, 0.0)`). -/
abbrev Perfil := ConceptId → ℚ

/-- Embeds `get_prereqs` (app.py 283-284): direct prerequisites of a concept. -/
def get_prereqs (concepto_id : ConceptId) (aristas : List Arista) : List ConceptId :=
  (aristas.filter (fun e => e.a = concepto_id)).map (fun e => e.de)

/-- Embeds `get_successors` (app.py 286-287): direct successors of a concept. -/
def get_successors (concepto_id : ConceptId) (aristas : List Arista) : List ConceptId :=
  (aristas.filter (fun e => e.de = concepto_id)).map (fun e => e.a)

/-- Embeds the clamp at app.py 798: `max(0.01, min(0.99, x))`. -/
def clamp_prob (x : ℚ) : ℚ := max (1/100) (min (99/100) x)

/-- Embeds `START_AT_ZERO = True` (app.py 14): new concepts start at 0. -/
def START_AT_ZERO : Bool := true

/-- Embeds `DEFAULTS['prior']` (logica_bkt.py 21): initial mastery 0.25. -/
def DEFAULTS_prior : ℚ := 1/4

/-- Outcome of the external pyBKT `model.fit` + `model.predict` call inside
`obtener_nueva_probabilidad` (logica_bkt.py 58-68), abstracted: either a
finite prediction value or an exception caught by the inner `except`. -/
inductive PyBKT where
  | ok (v : ℚ)
  | raise
deriving DecidableEq, Repr

/-- Embeds `obtener_nueva_probabilidad` (logica_bkt.py 24-73): empty history
returns the prior; otherwise the pyBKT prediction, with any internal pyBKT
exception caught and mapped to the prior. History entries are
(correcta, timestamp) pairs, oldest first. -/
def obtener_nueva_probabilidad (historial_respuestas : List (Bool × Nat))
    (py : PyBKT) : ℚ :=
  if historial_respuestas.isEmpty then DEFAULTS_prior
  else
    match py with
    | PyBKT.ok v => v
    | PyBKT.raise => DEFAULTS_prior

/-- Outcome of the guarded BKT block in the answer handler (app.py 786-796):
either the call ran normally (with the abstracted pyBKT outcome inside),
or it returned `None`, or an exception escaped to the handler's `except`. -/
inductive TryOutcome where
  | normal (py : PyBKT)
  | returnedNone
  | raisedOutside
deriving DecidableEq, Repr

/-- Embeds the heuristic increment fallback (app.py 792 and 796):
`prev + (0.05 if ok else -0.05)`. -/
def heuristic_fallback (prev : ℚ) (ok : Bool) : ℚ :=
  prev + (if ok then 1/20 else -(1/20))

/-- Embeds the handler's BKT value computation (app.py 786-796): normally the
updater's result on the event list; the `None` guard and the `except` branch
both fall back to the heuristic increment from the previous probability. -/
def handler_bkt_val (prev : ℚ) (ok : Bool) (eventos : List (Bool × Nat))
    (t : TryOutcome) : ℚ :=
  match t with
  | TryOutcome.normal py => obtener_nueva_probabilidad eventos py
  | TryOutcome.returnedNone => heuristic_fallback prev ok
  | TryOutcome.raisedOutside => heuristic_fallback prev ok

/-- Embeds `get_user_history` (app.py 244-252): the SQL reads the rows for the
pair `ORDER BY id DESC LIMIT 10`, so from the full per-concept log (oldest
first) it returns the most recent 10 events, newest first. -/
def get_user_history (log : List (Bool × Nat)) : List (Bool × Nat) :=
  log.reverse.take 10

/-- Embeds `eventos_bkt` (app.py 787): the handler reverses the history rows,
so the BKT updater receives the windowed events oldest first. -/
def eventos_bkt (log : List (Bool × Nat)) : List (Bool × Nat) :=
  (get_user_history log).reverse

/-- Embeds `apply_heuristic_propagation` (app.py 315-320): on a wrong answer
every direct prerequisite of the failed concept is set to
`max(0.01, snapshot - 0.15)`; other concepts keep their value. -/
def apply_heuristic_propagation (perfil : Perfil) (concepto_fallado_id : ConceptId)
    (aristas : List Arista) : Perfil :=
  fun p =>
    if p ∈ get_prereqs concepto_fallado_id aristas then
      max (1/100) (perfil p - 15/100)
    else perfil p

/-- Embeds `recomendar_ruta` (app.py 289-297): keep candidates whose every
prerequisite has mastery at least `thr`, pair them with their own mastery,
sort ascending by mastery (Python's stable sort) and return the first `k` ids. -/
def recomendar_ruta (perfil : Perfil) (ids : List ConceptId) (aristas : List Arista)
    (k : Nat) (thr : ℚ) : List ConceptId :=
  let candidatos :=
    (ids.filter (fun cid =>
      (get_prereqs cid aristas).all (fun p => decide (thr ≤ perfil p)))).map
      (fun cid => (cid, perfil cid))
  (((candidatos.mergeSort (fun x y => decide (x.2 ≤ y.2))).take k).map Prod.fst)

/-- Embeds the weak-prerequisite half of `rule_suggestions` (app.py 346-349):
direct prerequisites with mastery below `thr_weak`, ascending by mastery,
truncated to `maxn`. -/
def weak_pr_sorted (concepto_id : ConceptId) (perfil : Perfil) (aristas : List Arista)
    (thr_weak : ℚ) (maxn : Nat) : List ConceptId :=
  let pres := get_prereqs concepto_id aristas
  let weak_pr := pres.filter (fun p => decide (perfil p < thr_weak))
  (weak_pr.mergeSort (fun a b => decide (perfil a ≤ perfil b))).take maxn

/-- Embeds the advance half of `rule_suggestions` (app.py 352-359): successors
with a nonempty prerequisite list all of whose prerequisites have mastery at
least `thr_ready`, descending by the successor's own mastery, truncated to
`maxn`. -/
def advance_sorted (concepto_id : ConceptId) (perfil : Perfil) (aristas : List Arista)
    (thr_ready : ℚ) (maxn : Nat) : List ConceptId :=
  let succ := get_successors concepto_id aristas
  let advance := succ.filter (fun s =>
    !(get_prereqs s aristas).isEmpty &&
      (get_prereqs s aristas).all (fun x => decide (thr_ready ≤ perfil x)))
  (advance.mergeSort (fun a b => decide (perfil b ≤ perfil a))).take maxn

/-- Depth value assigned in one step of `compute_depths` (app.py 187):
`0` for a node without prerequisites, else one plus the maximum of the
already-known prerequisite depths. -/
def depth_value (aristas : List Arista) (d : ConceptId → Option Nat)
    (cid : ConceptId) : Nat :=
  if get_prereqs cid aristas = [] then 0
  else ((get_prereqs cid aristas).map (fun p => (d p).getD 0)).foldl max 0 + 1

/-- Embeds one body iteration of the inner `for cid in nodos` loop of
`compute_depths` (app.py 185-188): assign a still-unknown node once every
prerequisite's depth is known, recording that the pass changed something. -/
def depth_step (aristas : List Arista) (acc : (ConceptId → Option Nat) × Bool)
    (cid : ConceptId) : (ConceptId → Option Nat) × Bool :=
  if acc.1 cid = none ∧ (get_prereqs cid aristas).all (fun p => (acc.1 p).isSome) then
    (fun c => if c = cid then some (depth_value aristas acc.1 cid) else acc.1 c, true)
  else acc

/-- Embeds one full pass of the `while changed` loop of `compute_depths`
(app.py 183-188), with its sequential in-place updates. -/
def depth_pass (nodos : List ConceptId) (aristas : List Arista)
    (d : ConceptId → Option Nat) : (ConceptId → Option Nat) × Bool :=
  nodos.foldl (depth_step aristas) (d, false)

/-- Embeds the initial depth assignment of `compute_depths` (app.py 179-181):
every node starts unknown, then nodes without prerequisites get depth 0. -/
def depth_init (nodos : List ConceptId) (aristas : List Arista) :
    ConceptId → Option Nat :=
  fun cid => if cid ∈ nodos ∧ get_prereqs cid aristas = [] then some 0 else none

/-- Fuelled form of the `while changed` loop of `compute_depths`
(app.py 182-188): repeat full passes while a pass changes something. -/
def depth_loop (nodos : List ConceptId) (aristas : List Arista) :
    Nat → (ConceptId → Option Nat) → (ConceptId → Option Nat)
  | 0, d => d
  | Nat.succ fuel, d =>
    let r := depth_pass nodos aristas d
    if r.2 then depth_loop nodos aristas fuel r.1 else d

/-- Depth assignment after the `while changed` loop of `compute_depths` has
converged; `nodos.length + 1` passes always suffice (proved below). -/
def depth_converged (nodos : List ConceptId) (aristas : List Arista) :
    ConceptId → Option Nat :=
  depth_loop nodos aristas (nodos.length + 1) (depth_init nodos aristas)

/-- Embeds `compute_depths` (app.py 173-191) including the final default:
any node still unknown after convergence gets depth 2 (and, as with Python's
`depths_cache.get(cid, 2)` at app.py 196, so does any id outside the map). -/
def compute_depths (nodos : List ConceptId) (aristas : List Arista)
    (cid : ConceptId) : Nat :=
  (depth_converged nodos aristas cid).getD 2

/-- Graph node as loaded from `grafo_conocimiento_NODOS.json` (app.py 107-111):
id, display name, subject (`materia`) and grade (`año`, here `anio`). -/
structure Nodo where
  id : ConceptId
  concepto : String
  materia : String
  anio : String
deriving DecidableEq, Repr

/-- Embeds `_grado_to_num` (app.py 161-171): parse a grade string to 1..5,
defaulting to 3. -/
def grado_to_num (grado : String) : Int :=
  if grado = "" then 3
  else
    let g := grado.trim.toLower
    if g.startsWith "1" then 1
    else if g.startsWith "2" then 2
    else if g.startsWith "3" then 3
    else if g.startsWith "4" then 4
    else if g.startsWith "5" then 5
    else if g.contains '1' then 1
    else if g.contains '2' then 2
    else if g.contains '3' then 3
    else if g.contains '4' then 4
    else if g.contains '5' then 5
    else 3

/-- Embeds `prior_inicial_concepto` (app.py 193-203): depth-based base prior,
grade-delta adjustment, clamped to `[0.05, 0.85]`. The node's grade is read
from the node list (`nodos[concepto_id]['año']`). -/
def prior_inicial_concepto (concepto_id : ConceptId) (nodos : List Nodo)
    (aristas : List Arista) (grado_usuario : String) : ℚ :=
  let d := compute_depths (nodos.map (fun n => n.id)) aristas concepto_id
  let base : ℚ := if d = 0 then 3/5 else if d = 1 then 1/2 else if d = 2 then 2/5 else 3/10
  let g_user := grado_to_num grado_usuario
  let g_conc := grado_to_num ((((nodos.find? (fun n => n.id = concepto_id)).map
    (fun n => n.anio)).getD ""))
  let delta := g_user - g_conc
  let base2 : ℚ :=
    if 0 < delta then base + 1/20 * ((min delta 3 : Int) : ℚ)
    else if delta < 0 then base - 1/10 * ((min (-delta) 2 : Int) : ℚ)
    else base
  max (1/20) (min (17/20) base2)

/-- Embeds the lazy-creation prior of `get_user_profile` (app.py 222-229):
a missing (user, concept) row is inserted with probability
`0.0 if START_AT_ZERO else prior_inicial_concepto(...)`. -/
def lazy_creation_prob (concepto_id : ConceptId) (nodos : List Nodo)
    (aristas : List Arista) (grado_usuario : String) : ℚ :=
  if START_AT_ZERO then 0
  else prior_inicial_concepto concepto_id nodos aristas grado_usuario

/-- Quiz flow states (app.py 17-18). -/
inductive QState where
  | ACTIVE
  | WAIT_DECISION
deriving DecidableEq, Repr

/-- Embeds `st.session_state.decision_ctx` (app.py 834-839): the bout's
concept, the weak-prerequisite and advance-ready lists, and the external
suggestion payload reduced to its `siguiente_concepto.id` field (outer
`none` = no payload, inner `none` = payload without an id). -/
structure DecisionCtx where
  concepto_id : Option ConceptId
  weak : List ConceptId
  advance : List ConceptId
  sug : Option (Option ConceptId)
deriving DecidableEq, Repr

/-- Session state relevant to the quiz flow (app.py 442-455), together with
the persistent stores: `perfil` models the `dominio_usuario` probabilities
and `log` the per-concept rows of `historial_respuestas`, oldest first. -/
structure AppState where
  quiz_state : QState
  quiz_count : Nat
  aciertos : Nat
  quiz_len : Nat
  usados_items : List String
  override_next : Option ConceptId
  perfil : Perfil
  log : ConceptId → List (Bool × Nat)
  decision_ctx : Option DecisionCtx

/-- Event list handed to the BKT updater by the answer handler
(app.py 783-787): the new answer is logged first, then the windowed history
is read back and reversed to oldest-first order. -/
def bkt_events_used (s : AppState) (concepto_id : ConceptId) (ok : Bool)
    (ts : Nat) : List (Bool × Nat) :=
  eventos_bkt (s.log concepto_id ++ [(ok, ts)])

/-- Embeds the answer-submission handler (app.py 721 and 765-852). While
`WAIT_DECISION` the quiz form is not rendered, so a submission is rejected
and nothing is mutated. Otherwise: on a wrong answer propagation decays the
direct prerequisites; the answer is logged; the BKT value is computed from
the windowed history (with the handler's fallbacks) and its clamp stored for
the answered concept; counters advance, and reaching `quiz_len` packages a
`DecisionCtx` (from the pre-answer profile snapshot, as in the source) and
moves to `WAIT_DECISION`, else the quiz stays `ACTIVE` on the same concept. -/
def submit_answer (aristas : List Arista) (s : AppState) (concepto_id : ConceptId)
    (item_id : String) (ok : Bool) (ts : Nat) (t : TryOutcome)
    (sug : Option (Option ConceptId)) : AppState :=
  if s.quiz_state = QState.WAIT_DECISION then s
  else
    let db1 : Perfil :=
      if ok then s.perfil else apply_heuristic_propagation s.perfil concepto_id aristas
    let aciertos1 := if ok then s.aciertos + 1 else s.aciertos
    let log1 : ConceptId → List (Bool × Nat) :=
      fun c => if c = concepto_id then s.log c ++ [(ok, ts)] else s.log c
    let bkt_val := handler_bkt_val (s.perfil concepto_id) ok
      (bkt_events_used s concepto_id ok ts) t
    let nueva := clamp_prob bkt_val
    let db2 : Perfil := fun c => if c = concepto_id then nueva else db1 c
    let count1 := s.quiz_count + 1
    if s.quiz_len ≤ count1 then
      { quiz_state := QState.WAIT_DECISION
        quiz_count := 0
        aciertos := 0
        quiz_len := s.quiz_len
        usados_items := []
        override_next := s.override_next
        perfil := db2
        log := log1
        decision_ctx := some
          { concepto_id := some concepto_id
            weak := weak_pr_sorted concepto_id s.perfil aristas (9/20) 4
            advance := advance_sorted concepto_id s.perfil aristas (13/20) 4
            sug := sug } }
    else
      { s with
        quiz_count := count1
        aciertos := aciertos1
        usados_items := s.usados_items ++ [item_id]
        override_next := some concepto_id
        perfil := db2
        log := log1 }

/-- Inputs of one answer submission, for iterating the handler. -/
structure AnswerInput where
  concepto_id : ConceptId
  item_id : String
  ok : Bool
  ts : Nat
  t : TryOutcome
  sug : Option (Option ConceptId)

/-- Iterated answer submissions, oldest first. -/
def run_answers (aristas : List Arista) (s : AppState) (l : List AnswerInput) :
    AppState :=
  l.foldl (fun st a => submit_answer aristas st a.concepto_id a.item_id a.ok a.ts a.t a.sug) s

/-- Embeds the target resolution of the `avanzar` branch of `_aplicar_decision`
(app.py 514-519): `cand = tema_cid or (sugg_id if sugg_id in nodos else None)
or (advance[0] if advance else None)`. -/
def resolve_advance (tema_cid : Option ConceptId) (sugg_id : Option ConceptId)
    (nodos_ids : List ConceptId) (advance : List ConceptId) : Option ConceptId :=
  match tema_cid with
  | some tcid => some tcid
  | none =>
    match sugg_id with
    | some sid => if sid ∈ nodos_ids then some sid else advance.head?
    | none => advance.head?

/-- Embeds `_set_next_target` (app.py 468-480): fix the next concept and
reactivate the quiz, clearing counters, used items and the decision context. -/
def set_next_target (s : AppState) (cid_target : ConceptId) : AppState :=
  { s with
    override_next := some cid_target
    usados_items := []
    quiz_count := 0
    aciertos := 0
    quiz_state := QState.ACTIVE
    decision_ctx := none }

/-- Embeds the `avanzar` action of `_aplicar_decision` (app.py 482-523):
outside `WAIT_DECISION` the command only chats back; in `WAIT_DECISION` the
target is resolved with the `tema`/suggestion/advance-list precedence and a
failed resolution leaves the state (including the decision context)
unchanged, while success applies `_set_next_target`. -/
def aplicar_decision_avanzar (nodos_ids : List ConceptId) (s : AppState)
    (tema_cid : Option ConceptId) : AppState :=
  if s.quiz_state ≠ QState.WAIT_DECISION then s
  else
    let dc := s.decision_ctx.getD ⟨none, [], [], none⟩
    let sugg_id := dc.sug.getD none
    match resolve_advance tema_cid sugg_id nodos_ids dc.advance with
    | none => s
    | some cand => set_next_target s cand

theorem clamp_prob_lower (x : ℚ) : 1/100 ≤ clamp_prob x := le_max_left _ _

theorem clamp_prob_upper (x : ℚ) : clamp_prob x ≤ 99/100 :=
  max_le (by norm_num) (min_le_left _ _)

/-- Helper: a submission rejected by the `WAIT_DECISION` gate changes nothing. -/
theorem submit_answer_gated (aristas : List Arista) (s : AppState)
    (concepto_id : ConceptId) (item_id : String) (ok : Bool) (ts : Nat)
    (t : TryOutcome) (sug : Option (Option ConceptId))
    (h : s.quiz_state = QState.WAIT_DECISION) :
    submit_answer aristas s concepto_id item_id ok ts t sug = s := by
  unfold submit_answer
  rw [if_pos h]

/-- Helper: the profile written by an accepted submission, in closed form. -/
theorem submit_answer_perfil (aristas : List Arista) (s : AppState)
    (concepto_id : ConceptId) (item_id : String) (ok : Bool) (ts : Nat)
    (t : TryOutcome) (sug : Option (Option ConceptId))
    (hA : ¬ s.quiz_state = QState.WAIT_DECISION) :
    (submit_answer aristas s concepto_id item_id ok ts t sug).perfil =
      fun c =>
        if c = concepto_id then
          clamp_prob (handler_bkt_val (s.perfil concepto_id) ok
            (bkt_events_used s concepto_id ok ts) t)
        else
          (if ok then s.perfil
           else apply_heuristic_propagation s.perfil concepto_id aristas) c := by
  unfold submit_answer
  rw [if_neg hA]
  by_cases hc : s.quiz_len ≤ s.quiz_count + 1 <;> simp [hc]

/-- Concrete profile used by the witnesses. -/
def perfil_half : Perfil := fun _ => 1/2

/-- Concrete `ACTIVE` session state used by the witnesses. -/
def s_active : AppState :=
  { quiz_state := QState.ACTIVE
    quiz_count := 0
    aciertos := 0
    quiz_len := 3
    usados_items := []
    override_next := none
    perfil := perfil_half
    log := fun _ => []
    decision_ctx := none }

/-- Concrete `WAIT_DECISION` session state used by the witnesses. -/
def s_wait : AppState :=
  { quiz_state := QState.WAIT_DECISION
    quiz_count := 0
    aciertos := 0
    quiz_len := 3
    usados_items := []
    override_next := none
    perfil := perfil_half
    log := fun _ => []
    decision_ctx := some ⟨some "b", [], [], none⟩ }

/-- C1: for every submitted answer and every (learner, concept) observation
history, the mastery probability persisted for the answered concept after the
BKT update step lies in the closed interval [0.01, 0.99]. -/
theorem submitted_update_in_range (aristas : List Arista) (s : AppState)
    (concepto_id : ConceptId) (item_id : String) (ok : Bool) (ts : Nat)
    (t : TryOutcome) (sug : Option (Option ConceptId))
    (h : s.quiz_state = QState.ACTIVE) :
    1/100 ≤ (submit_answer aristas s concepto_id item_id ok ts t sug).perfil concepto_id ∧
    (submit_answer aristas s concepto_id item_id ok ts t sug).perfil concepto_id ≤ 99/100 := by
  have hne : ¬ s.quiz_state = QState.WAIT_DECISION := by simp [h]
  rw [submit_answer_perfil aristas s concepto_id item_id ok ts t sug hne]
  simp only [if_pos rfl]
  exact ⟨clamp_prob_lower _, clamp_prob_upper _⟩

/-- Witness for C1 at a concrete `ACTIVE` state with an empty history. -/
theorem submitted_update_in_range_witness :
    1/100 ≤ (submit_answer [] s_active "b" "i1" true 0
      (TryOutcome.normal PyBKT.raise) none).perfil "b" ∧
    (submit_answer [] s_active "b" "i1" true 0
      (TryOutcome.normal PyBKT.raise) none).perfil "b" ≤ 99/100 :=
  submitted_update_in_range [] s_active "b" "i1" true 0
    (TryOutcome.normal PyBKT.raise) none rfl

/-- Counterexample to C2: with `START_AT_ZERO = True` (app.py 14), the record
lazily created on first access by `get_user_profile` (app.py 222-229) is
written with probability exactly 0, which is below 0.01. -/
theorem lazy_creation_counterexample :
    lazy_creation_prob "c1" [⟨"c1", "n1", "m1", "3ro"⟩] [] "3ro" = 0 ∧
    ¬ ((1:ℚ)/100 ≤ lazy_creation_prob "c1" [⟨"c1", "n1", "m1", "3ro"⟩] [] "3ro") := by
  constructor
  · rfl
  · rw [show lazy_creation_prob "c1" [⟨"c1", "n1", "m1", "3ro"⟩] [] "3ro" = 0 from rfl]
    norm_num

/-- C2 (amended): the update written by an accepted answer submission keeps
every stored mastery probability in [0.01, 0.99] whenever the stored values
already are (the answered concept is clamped, propagated prerequisites are
floored at 0.01 and only decreased), but the value written at lazy creation
is exactly 0, because `START_AT_ZERO` is enabled. -/
theorem mastery_invariant_amended (aristas : List Arista) (s : AppState)
    (concepto_id : ConceptId) (item_id : String) (ok : Bool) (ts : Nat)
    (t : TryOutcome) (sug : Option (Option ConceptId))
    (hInv : ∀ c, 1/100 ≤ s.perfil c ∧ s.perfil c ≤ 99/100) :
    (∀ c, 1/100 ≤ (submit_answer aristas s concepto_id item_id ok ts t sug).perfil c ∧
      (submit_answer aristas s concepto_id item_id ok ts t sug).perfil c ≤ 99/100) ∧
    (START_AT_ZERO = true ∧
      ∀ (cid : ConceptId) (nodos : List Nodo) (ar : List Arista) (g : String),
        lazy_creation_prob cid nodos ar g = 0) := by
  refine ⟨?_, rfl, fun cid nodos ar g => rfl⟩
  intro c
  by_cases hW : s.quiz_state = QState.WAIT_DECISION
  · rw [submit_answer_gated aristas s concepto_id item_id ok ts t sug hW]
    exact hInv c
  · rw [submit_answer_perfil aristas s concepto_id item_id ok ts t sug hW]
    by_cases hc : c = concepto_id
    · simp only [hc, if_pos rfl]
      exact ⟨clamp_prob_lower _, clamp_prob_upper _⟩
    · simp only [if_neg hc]
      cases ok with
      | true => simpa using hInv c
      | false =>
        simp only [Bool.false_eq_true, if_false]
        unfold apply_heuristic_propagation
        by_cases hm : c ∈ get_prereqs concepto_id aristas
        · simp only [if_pos hm]
          refine ⟨le_max_left _ _, max_le (by norm_num) ?_⟩
          have := (hInv c).2
          linarith
        · simp only [if_neg hm]
          exact hInv c

/-- Witness for C2's amended statement at a concrete in-range state. -/
theorem mastery_invariant_amended_witness :
    1/100 ≤ (submit_answer [⟨"a", "b"⟩] s_active "b" "i1" false 0
      TryOutcome.returnedNone none).perfil "a" ∧
    (submit_answer [⟨"a", "b"⟩] s_active "b" "i1" false 0
      TryOutcome.returnedNone none).perfil "a" ≤ 99/100 :=
  (mastery_invariant_amended [⟨"a", "b"⟩] s_active "b" "i1" false 0
    TryOutcome.returnedNone none
    (fun c => ⟨by norm_num [s_active, perfil_half], by norm_num [s_active, perfil_half]⟩)).1 "a"

/-- Concrete state whose log for concept "c" already holds 10 answers. -/
def s_hist10 : AppState :=
  { quiz_state := QState.ACTIVE
    quiz_count := 0
    aciertos := 0
    quiz_len := 30
    usados_items := []
    override_next := none
    perfil := perfil_half
    log := fun c => if c = "c" then
        [(true,1),(true,2),(true,3),(true,4),(true,5),
         (true,6),(true,7),(true,8),(true,9),(true,10)]
      else []
    decision_ctx := none }

/-- Counterexample to C3: after an 11th answer on concept "c", the event list
handed to the BKT updater by the handler is not the complete history of the
pair — `get_user_history` reads `ORDER BY id DESC LIMIT 10`, so the oldest
event is dropped and only 10 of the 11 events are folded. -/
theorem full_history_counterexample :
    bkt_events_used s_hist10 "c" true 11 ≠ s_hist10.log "c" ++ [(true, 11)] ∧
    (bkt_events_used s_hist10 "c" true 11).length = 10 ∧
    (s_hist10.log "c" ++ [(true, 11)]).length = 11 := by
  refine ⟨?_, rfl, rfl⟩
  decide

/-- C3 (amended): the mastery update folds the most recent 10 logged events
for the (learner, concept) pair, oldest first — the length-at-most-10 suffix
of the full ordered history including the just-logged answer. -/
theorem windowed_history_amended (s : AppState) (concepto_id : ConceptId)
    (ok : Bool) (ts : Nat) :
    bkt_events_used s concepto_id ok ts =
      (s.log concepto_id ++ [(ok, ts)]).drop
        ((s.log concepto_id ++ [(ok, ts)]).length - 10) := by
  unfold bkt_events_used eventos_bkt get_user_history
  rw [List.take_reverse, List.reverse_reverse]

/-- Counterexample to C4: on an empty observation history with previous
probability 0.5 and a correct answer, the updater returns the fixed prior
0.25 (logica_bkt.py 37-39), not `previous_probability + 0.05 = 0.55`. -/
theorem bkt_fallback_counterexample :
    obtener_nueva_probabilidad [] (PyBKT.ok (7/10)) = 1/4 ∧
    handler_bkt_val (1/2) true [] (TryOutcome.normal (PyBKT.ok (7/10))) = 1/4 ∧
    (1/4 : ℚ) ≠ 1/2 + 1/20 := by
  refine ⟨rfl, rfl, by norm_num⟩

/-- C4 (amended): when the BKT computation is undefined at the updater level
(empty history, or the pyBKT mechanism raising internally), the updater
returns the fixed prior 0.25; the `previous_probability ± 0.05` heuristic
applies only in the handler's defensive branches — the updater call returning
`None` or raising out of the `try` block — which the shipped updater never
triggers. -/
theorem bkt_fallback_amended (historial : List (Bool × Nat)) (py : PyBKT)
    (prev : ℚ) (ok : Bool) (eventos : List (Bool × Nat))
    (h : historial = [] ∨ py = PyBKT.raise) :
    obtener_nueva_probabilidad historial py = DEFAULTS_prior ∧
    handler_bkt_val prev ok eventos TryOutcome.returnedNone = heuristic_fallback prev ok ∧
    handler_bkt_val prev ok eventos TryOutcome.raisedOutside = heuristic_fallback prev ok := by
  refine ⟨?_, rfl, rfl⟩
  rcases h with h | h
  · subst h; rfl
  · subst h
    unfold obtener_nueva_probabilidad
    split <;> rfl

/-- Witness for C4's amended statement on an empty history. -/
theorem bkt_fallback_amended_witness :
    obtener_nueva_probabilidad [] (PyBKT.ok 0) = DEFAULTS_prior :=
  (bkt_fallback_amended [] (PyBKT.ok 0) (1/2) true [] (Or.inl rfl)).1

/-- Helper: a submission never changes the configured bout length. -/
theorem submit_answer_quiz_len (aristas : List Arista) (s : AppState)
    (concepto_id : ConceptId) (item_id : String) (ok : Bool) (ts : Nat)
    (t : TryOutcome) (sug : Option (Option ConceptId)) :
    (submit_answer aristas s concepto_id item_id ok ts t sug).quiz_len = s.quiz_len := by
  unfold submit_answer
  by_cases hW : s.quiz_state = QState.WAIT_DECISION
  · rw [if_pos hW]
  · rw [if_neg hW]
    by_cases hc : s.quiz_len ≤ s.quiz_count + 1 <;> simp [hc]

/-- Helper: an accepted submission that reaches the bout length gates. -/
theorem submit_answer_reach (aristas : List Arista) (s : AppState)
    (concepto_id : ConceptId) (item_id : String) (ok : Bool) (ts : Nat)
    (t : TryOutcome) (sug : Option (Option ConceptId))
    (hA : s.quiz_state = QState.ACTIVE) (hc : s.quiz_len ≤ s.quiz_count + 1) :
    (submit_answer aristas s concepto_id item_id ok ts t sug).quiz_state =
      QState.WAIT_DECISION := by
  have hne : ¬ s.quiz_state = QState.WAIT_DECISION := by simp [hA]
  unfold submit_answer
  rw [if_neg hne]
  simp [hc]

/-- Helper: an accepted submission below the bout length stays `ACTIVE` and
advances the answered count by one. -/
theorem submit_answer_continue (aristas : List Arista) (s : AppState)
    (concepto_id : ConceptId) (item_id : String) (ok : Bool) (ts : Nat)
    (t : TryOutcome) (sug : Option (Option ConceptId))
    (hA : s.quiz_state = QState.ACTIVE) (hc : s.quiz_count + 1 < s.quiz_len) :
    (submit_answer aristas s concepto_id item_id ok ts t sug).quiz_state =
      QState.ACTIVE ∧
    (submit_answer aristas s concepto_id item_id ok ts t sug).quiz_count =
      s.quiz_count + 1 := by
  have hne : ¬ s.quiz_state = QState.WAIT_DECISION := by simp [hA]
  have hge : ¬ s.quiz_len ≤ s.quiz_count + 1 := by omega
  unfold submit_answer
  rw [if_neg hne]
  simp [hge, hA]

/-- Helper: from `ACTIVE`, a run of answers whose count completes the bout
length ends in `WAIT_DECISION`. -/
theorem run_answers_reaches_wait (aristas : List Arista) (l : List AnswerInput) :
    ∀ s : AppState, s.quiz_state = QState.ACTIVE →
      s.quiz_count + l.length = s.quiz_len → l ≠ [] →
      (run_answers aristas s l).quiz_state = QState.WAIT_DECISION := by
  induction l with
  | nil => intro s _ _ hne; exact absurd rfl hne
  | cons a l' ih =>
    intro s hA hsum _
    have hrun : run_answers aristas s (a :: l') =
        run_answers aristas
          (submit_answer aristas s a.concepto_id a.item_id a.ok a.ts a.t a.sug) l' := rfl
    rw [hrun]
    by_cases hl' : l' = []
    · subst hl'
      have hc : s.quiz_len ≤ s.quiz_count + 1 := by
        simp only [List.length_cons, List.length_nil] at hsum; omega
      have hw := submit_answer_reach aristas s a.concepto_id a.item_id a.ok a.ts a.t a.sug hA hc
      simpa [run_answers] using hw
    · have hc : s.quiz_count + 1 < s.quiz_len := by
        have : 0 < l'.length := List.length_pos.mpr hl'
        simp only [List.length_cons] at hsum; omega
      obtain ⟨hA1, hcount1⟩ :=
        submit_answer_continue aristas s a.concepto_id a.item_id a.ok a.ts a.t a.sug hA hc
      refine ih _ hA1 ?_ hl'
      rw [hcount1, submit_answer_quiz_len]
      simp only [List.length_cons] at hsum
      omega

/-- Helper: from `ACTIVE`, a run of answers that stays strictly below the bout
length stays `ACTIVE` and just accumulates the answered count. -/
theorem run_answers_stays_active (aristas : List Arista) (l : List AnswerInput) :
    ∀ s : AppState, s.quiz_state = QState.ACTIVE →
      s.quiz_count + l.length < s.quiz_len →
      (run_answers aristas s l).quiz_state = QState.ACTIVE ∧
      (run_answers aristas s l).quiz_count = s.quiz_count + l.length ∧
      (run_answers aristas s l).quiz_len = s.quiz_len := by
  induction l with
  | nil => intro s hA h; exact ⟨hA, by simp [run_answers], rfl⟩
  | cons a l' ih =>
    intro s hA hsum
    have hrun : run_answers aristas s (a :: l') =
        run_answers aristas
          (submit_answer aristas s a.concepto_id a.item_id a.ok a.ts a.t a.sug) l' := rfl
    rw [hrun]
    have hc : s.quiz_count + 1 < s.quiz_len := by
      simp only [List.length_cons] at hsum; omega
    obtain ⟨hA1, hcount1⟩ :=
      submit_answer_continue aristas s a.concepto_id a.item_id a.ok a.ts a.t a.sug hA hc
    have hlen1 := submit_answer_quiz_len aristas s a.concepto_id a.item_id a.ok a.ts a.t a.sug
    obtain ⟨h1, h2, h3⟩ := ih _ hA1 (by rw [hcount1, hlen1]; simp only [List.length_cons] at hsum; omega)
    refine ⟨h1, ?_, by rw [h3, hlen1]⟩
    rw [h2, hcount1]
    simp only [List.length_cons]
    omega

/-- C5: in `ACTIVE`, after exactly `quiz_len` submitted answers the session
state becomes `WAIT_DECISION` (and after strictly fewer it is still
`ACTIVE`); and in every `WAIT_DECISION` state a submitted answer is rejected
outright, mutating nothing — in particular no mastery record. -/
theorem quiz_gating_spec (aristas : List Arista) (s s' : AppState)
    (l : List AnswerInput) (concepto_id : ConceptId) (item_id : String)
    (ok : Bool) (ts : Nat) (t : TryOutcome) (sug : Option (Option ConceptId))
    (hA : s.quiz_state = QState.ACTIVE) (h0 : s.quiz_count = 0)
    (hlen : 0 < s.quiz_len) (hl : l.length = s.quiz_len) :
    (run_answers aristas s l).quiz_state = QState.WAIT_DECISION ∧
    (∀ k, k < s.quiz_len → (run_answers aristas s (l.take k)).quiz_state = QState.ACTIVE) ∧
    (s'.quiz_state = QState.WAIT_DECISION →
      submit_answer aristas s' concepto_id item_id ok ts t sug = s' ∧
      (submit_answer aristas s' concepto_id item_id ok ts t sug).perfil = s'.perfil) := by
  refine ⟨?_, ?_, fun hW => ?_⟩
  · refine run_answers_reaches_wait aristas l s hA (by omega) ?_
    intro hnil
    rw [hnil] at hl
    simp only [List.length_nil] at hl
    omega
  · intro k hk
    have htk : (l.take k).length = k := by
      rw [List.length_take]
      omega
    exact (run_answers_stays_active aristas (l.take k) s hA (by omega)).1
  · have heq := submit_answer_gated aristas s' concepto_id item_id ok ts t sug hW
    exact ⟨heq, by rw [heq]⟩

/-- Concrete three-answer run used by the C5 witness. -/
def l0 : List AnswerInput :=
  [⟨"b", "i1", true, 1, TryOutcome.normal PyBKT.raise, none⟩,
   ⟨"b", "i2", true, 2, TryOutcome.normal PyBKT.raise, none⟩,
   ⟨"b", "i3", false, 3, TryOutcome.normal PyBKT.raise, none⟩]

/-- Witness for C5: a concrete 3-answer bout gates, a 2-answer run does not,
and a gated state swallows a submission unchanged. -/
theorem quiz_gating_spec_witness :
    (run_answers [] s_active l0).quiz_state = QState.WAIT_DECISION ∧
    (run_answers [] s_active (l0.take 2)).quiz_state = QState.ACTIVE ∧
    submit_answer [] s_wait "b" "i9" true 9 (TryOutcome.normal PyBKT.raise) none = s_wait := by
  have h := quiz_gating_spec [] s_active s_wait l0 "b" "i9" true 9
    (TryOutcome.normal PyBKT.raise) none rfl rfl (by decide) rfl
  exact ⟨h.1, h.2.1 2 (by decide), (h.2.2 rfl).1⟩

/-- C6: an `avanzar` decision resolves its target with the exact precedence
topic-match, then valid external suggestion id, then head of the
advance-ready list; and when resolution fails the state machine stays in
`WAIT_DECISION` with the decision context unchanged (the whole state is
untouched). -/
theorem advance_resolution_spec (nodos_ids : List ConceptId) (s : AppState)
    (tema_cid sugg_id : Option ConceptId) (advance : List ConceptId) :
    (∀ tcid, tema_cid = some tcid →
      resolve_advance tema_cid sugg_id nodos_ids advance = some tcid) ∧
    (∀ sid, tema_cid = none → sugg_id = some sid → sid ∈ nodos_ids →
      resolve_advance tema_cid sugg_id nodos_ids advance = some sid) ∧
    (tema_cid = none → (∀ sid, sugg_id = some sid → sid ∉ nodos_ids) →
      resolve_advance tema_cid sugg_id nodos_ids advance = advance.head?) ∧
    (s.quiz_state = QState.WAIT_DECISION →
      resolve_advance tema_cid
        ((s.decision_ctx.getD ⟨none, [], [], none⟩).sug.getD none) nodos_ids
        (s.decision_ctx.getD ⟨none, [], [], none⟩).advance = none →
      aplicar_decision_avanzar nodos_ids s tema_cid = s) := by
  refine ⟨?_, ?_, ?_, ?_⟩
  · intro tcid h
    subst h
    rfl
  · intro sid h1 h2 hmem
    subst h1
    subst h2
    simp [resolve_advance, hmem]
  · intro h1 hno
    subst h1
    cases hs : sugg_id with
    | none => rfl
    | some sid => simp [resolve_advance, hno sid hs]
  · intro hW hres
    unfold aplicar_decision_avanzar
    rw [if_neg (by simp [hW])]
    simp only [hres]

/-- Witness for C6: topic precedence at a concrete input, and a concrete
failed resolution (no topic, no suggestion, empty advance list) that leaves
the gated state untouched. -/
theorem advance_resolution_spec_witness :
    resolve_advance (some "a") none ["a", "b"] [] = some "a" ∧
    aplicar_decision_avanzar ["a", "b"] s_wait none = s_wait :=
  ⟨(advance_resolution_spec ["a", "b"] s_wait (some "a") none []).1 "a" rfl,
   (advance_resolution_spec ["a", "b"] s_wait none none []).2.2.2 rfl rfl⟩

/-- C7: `recomendar_ruta` with threshold 0.6 returns only candidate concepts
whose every prerequisite has mastery at least the threshold, sorted ascending
by the concept's own mastery, truncated to the first `k`. -/
theorem recomendar_ruta_spec (perfil : Perfil) (ids : List ConceptId)
    (aristas : List Arista) (k : Nat) :
    (∀ cid ∈ recomendar_ruta perfil ids aristas k (3/5),
      cid ∈ ids ∧ ∀ p ∈ get_prereqs cid aristas, 3/5 ≤ perfil p) ∧
    (recomendar_ruta perfil ids aristas k (3/5)).Pairwise
      (fun a b => perfil a ≤ perfil b) ∧
    (recomendar_ruta perfil ids aristas k (3/5)).length ≤ k := by
  have hg : recomendar_ruta perfil ids aristas k (3/5) =
      (((((ids.filter (fun cid =>
          (get_prereqs cid aristas).all (fun p => decide ((3/5 : ℚ) ≤ perfil p)))).map
          (fun cid => (cid, perfil cid))).mergeSort
          (fun x y => decide (x.2 ≤ y.2))).take k).map Prod.fst) := rfl
  rw [hg]
  have hsnd : ∀ x ∈ ((ids.filter (fun cid =>
      (get_prereqs cid aristas).all (fun p => decide ((3/5 : ℚ) ≤ perfil p)))).map
      (fun cid => (cid, perfil cid))).mergeSort (fun x y => decide (x.2 ≤ y.2)),
      x.2 = perfil x.1 := by
    intro x hx
    obtain ⟨c, _, hcx⟩ := List.mem_map.mp (List.mem_mergeSort.mp hx)
    rw [← hcx]
  refine ⟨?_, ?_, ?_⟩
  · intro cid hcid
    obtain ⟨x, hx, hx1⟩ := List.mem_map.mp hcid
    have hxc := List.mem_mergeSort.mp (List.take_subset k _ hx)
    obtain ⟨c, hc, hcx⟩ := List.mem_map.mp hxc
    have hceq : c = cid := by rw [← hx1, ← hcx]
    subst hceq
    obtain ⟨hcids, hcall⟩ := List.mem_filter.mp hc
    refine ⟨hcids, fun p hp => ?_⟩
    exact of_decide_eq_true (List.all_eq_true.mp hcall p hp)
  · have htrans : ∀ (a b c : ConceptId × ℚ),
        (fun x y : ConceptId × ℚ => decide (x.2 ≤ y.2)) a b = true →
        (fun x y : ConceptId × ℚ => decide (x.2 ≤ y.2)) b c = true →
        (fun x y : ConceptId × ℚ => decide (x.2 ≤ y.2)) a c = true := by
      intro a b c h1 h2
      simp only [decide_eq_true_iff] at h1 h2 ⊢
      exact le_trans h1 h2
    have htotal : ∀ (a b : ConceptId × ℚ),
        ((fun x y : ConceptId × ℚ => decide (x.2 ≤ y.2)) a b ||
         (fun x y : ConceptId × ℚ => decide (x.2 ≤ y.2)) b a) = true := by
      intro a b
      simpa using le_total a.2 b.2
    have hsorted := List.sorted_mergeSort htrans htotal
      ((ids.filter (fun cid =>
        (get_prereqs cid aristas).all (fun p => decide ((3/5 : ℚ) ≤ perfil p)))).map
        (fun cid => (cid, perfil cid)))
    have hsorted2 : List.Pairwise (fun x y : ConceptId × ℚ => perfil x.1 ≤ perfil y.1)
        (((ids.filter (fun cid =>
          (get_prereqs cid aristas).all (fun p => decide ((3/5 : ℚ) ≤ perfil p)))).map
          (fun cid => (cid, perfil cid))).mergeSort (fun x y => decide (x.2 ≤ y.2))) :=
      List.Pairwise.imp_of_mem
        (fun ha hb h => by
          rw [← hsnd _ ha, ← hsnd _ hb]
          exact of_decide_eq_true h) hsorted
    exact List.pairwise_map.mpr
      (List.Pairwise.sublist (List.take_sublist k _) hsorted2)
  · rw [List.length_map, List.length_take]
    exact min_le_left _ _

/-- C8: the advance-ready half of `rule_suggestions` with readiness threshold
0.65 returns only successors of the concept all of whose own prerequisites
have mastery at least 0.65, sorted descending by the successor's own mastery,
and at most 4 of them. -/
theorem advance_ready_spec (concepto_id : ConceptId) (perfil : Perfil)
    (aristas : List Arista) :
    (∀ s ∈ advance_sorted concepto_id perfil aristas (13/20) 4,
      s ∈ get_successors concepto_id aristas ∧
      ∀ p ∈ get_prereqs s aristas, 13/20 ≤ perfil p) ∧
    (advance_sorted concepto_id perfil aristas (13/20) 4).Pairwise
      (fun a b => perfil b ≤ perfil a) ∧
    (advance_sorted concepto_id perfil aristas (13/20) 4).length ≤ 4 := by
  have hg : advance_sorted concepto_id perfil aristas (13/20) 4 =
      ((((get_successors concepto_id aristas).filter (fun s =>
          !(get_prereqs s aristas).isEmpty &&
            (get_prereqs s aristas).all (fun x => decide ((13/20 : ℚ) ≤ perfil x)))).mergeSort
          (fun a b => decide (perfil b ≤ perfil a))).take 4) := rfl
  rw [hg]
  refine ⟨?_, ?_, ?_⟩
  · intro s hs
    have hsf := List.mem_mergeSort.mp (List.take_subset 4 _ hs)
    obtain ⟨hsucc, hcond⟩ := List.mem_filter.mp hsf
    rw [Bool.and_eq_true] at hcond
    refine ⟨hsucc, fun p hp => ?_⟩
    exact of_decide_eq_true (List.all_eq_true.mp hcond.2 p hp)
  · have htrans : ∀ (a b c : ConceptId),
        (fun a b : ConceptId => decide (perfil b ≤ perfil a)) a b = true →
        (fun a b : ConceptId => decide (perfil b ≤ perfil a)) b c = true →
        (fun a b : ConceptId => decide (perfil b ≤ perfil a)) a c = true := by
      intro a b c h1 h2
      simp only [decide_eq_true_iff] at h1 h2 ⊢
      exact le_trans h2 h1
    have htotal : ∀ (a b : ConceptId),
        ((fun a b : ConceptId => decide (perfil b ≤ perfil a)) a b ||
         (fun a b : ConceptId => decide (perfil b ≤ perfil a)) b a) = true := by
      intro a b
      simpa using le_total (perfil b) (perfil a)
    have hsorted := List.sorted_mergeSort htrans htotal
      ((get_successors concepto_id aristas).filter (fun s =>
        !(get_prereqs s aristas).isEmpty &&
          (get_prereqs s aristas).all (fun x => decide ((13/20 : ℚ) ≤ perfil x))))
    exact List.Pairwise.sublist (List.take_sublist 4 _)
      (hsorted.imp (fun h => of_decide_eq_true h))
  · rw [List.length_take]
    exact min_le_left _ _

/-- Count of nodes whose depth is still unknown. -/
def unassigned (nodos : List ConceptId) (d : ConceptId → Option Nat) : Nat :=
  nodos.countP (fun c => (d c).isNone)

/-- Helper: a pointwise-smaller Boolean predicate that differs at one list
element has a strictly smaller count. -/
theorem countP_lt_of_pointwise {α : Type} {l : List α} {p q : α → Bool}
    (hpq : ∀ a ∈ l, p a = true → q a = true) (a0 : α) (ha0 : a0 ∈ l)
    (hp : p a0 = false) (hq : q a0 = true) :
    l.countP p < l.countP q := by
  induction l with
  | nil => cases ha0
  | cons b t ih =>
    rw [List.countP_cons, List.countP_cons]
    have hle : t.countP p ≤ t.countP q :=
      List.countP_mono_left (fun x hx hpx => hpq x (List.mem_cons_of_mem b hx) hpx)
    rcases List.mem_cons.mp ha0 with hb | ht
    · subst hb
      simp only [hp, Bool.false_eq_true, if_false, hq, if_true]
      omega
    · have hstrict := ih (fun x hx hpx => hpq x (List.mem_cons_of_mem b hx) hpx) ht
      by_cases hpb : p b = true
      · have hqb := hpq b (List.mem_cons_self b t) hpb
        simp only [hpb, hqb, if_true]
        omega
      · simp only [Bool.not_eq_true] at hpb
        simp only [hpb, Bool.false_eq_true, if_false]
        by_cases hqb : q b = true <;>
          simp only [hqb, if_true, Bool.false_eq_true, if_false] <;> omega

/-- Helper: one step of the depth pass never erases an assigned depth. -/
theorem depth_step_preserve (aristas : List Arista)
    (acc : (ConceptId → Option Nat) × Bool) (cid c : ConceptId)
    (h : acc.1 c ≠ none) : (depth_step aristas acc cid).1 c = acc.1 c := by
  unfold depth_step
  by_cases hcond : acc.1 cid = none ∧
      (get_prereqs cid aristas).all (fun p => (acc.1 p).isSome)
  · rw [if_pos hcond]
    by_cases hc : c = cid
    · subst hc
      exact absurd hcond.1 h
    · simp [hc]
  · rw [if_neg hcond]

/-- Helper: one step of the depth pass only shrinks the unknown set. -/
theorem depth_step_pointwise (aristas : List Arista)
    (acc : (ConceptId → Option Nat) × Bool) (cid c : ConceptId) :
    ((depth_step aristas acc cid).1 c).isNone = true → (acc.1 c).isNone = true := by
  intro h
  by_cases hc : acc.1 c = none
  · simp [hc]
  · rw [depth_step_preserve aristas acc cid c hc] at h
    exact h

/-- Helper: folding depth steps over a sublist of the nodes never grows the
unknown count, and when the changed flag was raised during the fold the
unknown count strictly drops. -/
theorem depth_fold_le (aristas : List Arista) (nodos : List ConceptId) :
    ∀ (l : List ConceptId) (acc : (ConceptId → Option Nat) × Bool), l ⊆ nodos →
      unassigned nodos (l.foldl (depth_step aristas) acc).1 ≤ unassigned nodos acc.1 ∧
      ((l.foldl (depth_step aristas) acc).2 = true →
        acc.2 = true ∨
          unassigned nodos (l.foldl (depth_step aristas) acc).1 < unassigned nodos acc.1) := by
  intro l
  induction l with
  | nil => intro acc _; exact ⟨le_refl _, fun h => Or.inl h⟩
  | cons b t ih =>
    intro acc hsub
    obtain ⟨hb, ht⟩ := List.cons_subset.mp hsub
    have hstep_le : unassigned nodos (depth_step aristas acc b).1 ≤ unassigned nodos acc.1 :=
      List.countP_mono_left (fun x _ hx => depth_step_pointwise aristas acc b x hx)
    obtain ⟨ih1, ih2⟩ := ih (depth_step aristas acc b) ht
    rw [List.foldl_cons]
    refine ⟨le_trans ih1 hstep_le, fun hflag => ?_⟩
    rcases ih2 hflag with h1 | h1
    · by_cases hacc : acc.2 = true
      · exact Or.inl hacc
      · right
        have hcond : acc.1 b = none ∧
            (get_prereqs b aristas).all (fun p => (acc.1 p).isSome) := by
          by_contra hc
          have : depth_step aristas acc b = acc := by
            unfold depth_step
            rw [if_neg hc]
          rw [this] at h1
          exact hacc h1
        have hassigned : (depth_step aristas acc b).1 b =
            some (depth_value aristas acc.1 b) := by
          unfold depth_step
          rw [if_pos hcond]
          simp
        have hstrict : unassigned nodos (depth_step aristas acc b).1 < unassigned nodos acc.1 := by
          refine countP_lt_of_pointwise
            (fun x _ hx => depth_step_pointwise aristas acc b x hx) b hb ?_ ?_
          · rw [hassigned]
            rfl
          · rw [hcond.1]
            rfl
        exact lt_of_le_of_lt ih1 hstrict
    · exact Or.inr (lt_of_lt_of_le h1 hstep_le)

/-- Helper: a pass that reports a change strictly shrinks the unknown count. -/
theorem depth_pass_decrease (nodos : List ConceptId) (aristas : List Arista)
    (d : ConceptId → Option Nat) (h : (depth_pass nodos aristas d).2 = true) :
    unassigned nodos (depth_pass nodos aristas d).1 < unassigned nodos d := by
  rcases (depth_fold_le aristas nodos nodos (d, false) (List.Subset.refl nodos)).2 h with h1 | h1
  · cases h1
  · exact h1

/-- Helper: unfolding equation for the fuelled loop. -/
theorem depth_loop_succ (nodos : List ConceptId) (aristas : List Arista)
    (n : Nat) (d : ConceptId → Option Nat) :
    depth_loop nodos aristas (n + 1) d =
      if (depth_pass nodos aristas d).2 then
        depth_loop nodos aristas n (depth_pass nodos aristas d).1
      else d := rfl

/-- Helper: with fuel exceeding the unknown count, the iterated pass reaches a
fixpoint — the pass run once more reports no change, which is exactly the
exit condition of the source's `while changed` loop. -/
theorem depth_loop_fix (nodos : List ConceptId) (aristas : List Arista) :
    ∀ (fuel : Nat) (d : ConceptId → Option Nat), unassigned nodos d < fuel →
      (depth_pass nodos aristas (depth_loop nodos aristas fuel d)).2 = false := by
  intro fuel
  induction fuel with
  | zero => intro d h; omega
  | succ n ih =>
    intro d h
    by_cases hch : (depth_pass nodos aristas d).2 = true
    · have hlt : unassigned nodos (depth_pass nodos aristas d).1 < n := by
        have := depth_pass_decrease nodos aristas d hch
        omega
      rw [depth_loop_succ, if_pos hch]
      exact ih _ hlt
    · simp only [Bool.not_eq_true] at hch
      rw [depth_loop_succ, hch, if_neg (by simp)]
      exact hch

/-- Helper: the whole pass never erases an assigned depth. -/
theorem depth_fold_keep (aristas : List Arista) :
    ∀ (l : List ConceptId) (acc : (ConceptId → Option Nat) × Bool) (c : ConceptId),
      acc.1 c ≠ none → (l.foldl (depth_step aristas) acc).1 c = acc.1 c := by
  intro l
  induction l with
  | nil => intro acc c h; rfl
  | cons b t ih =>
    intro acc c h
    rw [List.foldl_cons]
    have hstep := depth_step_preserve aristas acc b c h
    rw [ih (depth_step aristas acc b) c (by rw [hstep]; exact h), hstep]

/-- Helper: the iterated pass never erases an assigned depth. -/
theorem depth_loop_keep (nodos : List ConceptId) (aristas : List Arista) :
    ∀ (fuel : Nat) (d : ConceptId → Option Nat) (c : ConceptId),
      d c ≠ none → depth_loop nodos aristas fuel d c = d c := by
  intro fuel
  induction fuel with
  | zero => intro d c h; rfl
  | succ n ih =>
    intro d c h
    have hpass : (depth_pass nodos aristas d).1 c = d c :=
      depth_fold_keep aristas nodos (d, false) c h
    by_cases hch : (depth_pass nodos aristas d).2 = true
    · rw [depth_loop_succ, if_pos hch, ih _ c (by rw [hpass]; exact h), hpass]
    · simp only [Bool.not_eq_true] at hch
      rw [depth_loop_succ, hch, if_neg (by simp)]

/-- C9: over node-to-node edge sets — including cyclic ones — the depth
computation is total and its `while changed` loop terminates: iterating full
passes from the initial assignment reaches, within `|nodos| + 1` passes, an
assignment on which a further pass reports no change; nodes without
prerequisites get depth 0; and every node still unknown at convergence gets
the default depth 2. -/
theorem compute_depths_spec (nodos : List ConceptId) (aristas : List Arista)
    (hwf : ∀ e ∈ aristas, e.de ∈ nodos ∧ e.a ∈ nodos) :
    (depth_pass nodos aristas (depth_converged nodos aristas)).2 = false ∧
    (∀ cid ∈ nodos, get_prereqs cid aristas = [] →
      compute_depths nodos aristas cid = 0) ∧
    (∀ cid, depth_converged nodos aristas cid = none →
      compute_depths nodos aristas cid = 2) := by
  refine ⟨?_, ?_, ?_⟩
  · have h1 : unassigned nodos (depth_init nodos aristas) ≤ nodos.length :=
      List.countP_le_length _
    exact depth_loop_fix nodos aristas (nodos.length + 1) (depth_init nodos aristas)
      (by omega)
  · intro cid hcid hpre
    have hinit : depth_init nodos aristas cid = some 0 := by
      unfold depth_init
      rw [if_pos ⟨hcid, hpre⟩]
    have hkeep := depth_loop_keep nodos aristas (nodos.length + 1)
      (depth_init nodos aristas) cid (by rw [hinit]; simp)
    unfold compute_depths depth_converged
    rw [hkeep, hinit]
    rfl
  · intro cid h
    unfold compute_depths
    rw [h]
    rfl

/-- Node list with a two-node cycle and an isolated root, for the C9 witness. -/
def nodos0 : List ConceptId := ["a", "b", "c"]

/-- Cyclic edge set ("a" and "b" require each other), for the C9 witness. -/
def aristas0 : List Arista := [⟨"a", "b"⟩, ⟨"b", "a"⟩]

/-- Witness for C9 on the concrete cyclic graph: the cycle members get the
default depth 2 and the prerequisite-free node gets depth 0. -/
theorem compute_depths_spec_witness :
    compute_depths nodos0 aristas0 "a" = 2 ∧ compute_depths nodos0 aristas0 "c" = 0 := by
  have h := compute_depths_spec nodos0 aristas0 (by decide)
  exact ⟨h.2.2 "a" (by decide), h.2.1 "c" (by decide) (by decide)⟩

/-- C10: a correct answer mutates only the answered concept's mastery record —
prerequisite decay runs exclusively on incorrect answers, so every concept
other than the answered one keeps its stored probability. -/
theorem correct_answer_frame (aristas : List Arista) (s : AppState)
    (concepto_id : ConceptId) (item_id : String) (ts : Nat) (t : TryOutcome)
    (sug : Option (Option ConceptId)) (p : ConceptId) (hp : p ≠ concepto_id) :
    (submit_answer aristas s concepto_id item_id true ts t sug).perfil p = s.perfil p := by
  by_cases hW : s.quiz_state = QState.WAIT_DECISION
  · rw [submit_answer_gated aristas s concepto_id item_id true ts t sug hW]
  · rw [submit_answer_perfil aristas s concepto_id item_id true ts t sug hW]
    simp [hp]

/-- Witness for C10 at a concrete state: answering "b" correctly leaves its
prerequisite "a" untouched. -/
theorem correct_answer_frame_witness :
    (submit_answer [⟨"a", "b"⟩] s_active "b" "i1" true 0
      (TryOutcome.normal PyBKT.raise) none).perfil "a" = s_active.perfil "a" :=
  correct_answer_frame [⟨"a", "b"⟩] s_active "b" "i1" 0
    (TryOutcome.normal PyBKT.raise) none "a" (by decide)
